import Mathlib

/-!
Verification of the sudoku-cli core (board, solver, generator) against its
specification.  The Python classes are shallowly embedded: the mutable
`Board` object of `src/board.py` becomes an immutable record, in-place
mutation becomes functional update, and the recursive backtracking of
`src/solver.py` becomes fuel-indexed structural recursion (the fuel only
bounds the recursion depth, which Python bounds by the call stack; every
actual run uses fewer than 82 nested calls).
-/

namespace SudokuCli

/-- Embedding of `Board.__init__` state (`src/board.py`): `grid` is the
9×9 list-of-lists of cell values (0 = empty, Python `int` embedded as
`Int`), `given` the parallel list-of-lists of immutability flags.
Deserialization (`from_dict`) can build boards of any shape, so the
lists are not length-indexed. -/
structure Board where
  grid : List (List Int)
  given : List (List Bool)
deriving DecidableEq

/-- Embedding of `Board()`: the empty 9×9 board. -/
def emptyBoard : Board :=
  ⟨List.replicate 9 (List.replicate 9 0), List.replicate 9 (List.replicate 9 false)⟩

/-- Embedding of `Board.get(row, col)`: `self.grid[row][col]`.  Python indexing raises
out of range; the embedding totalizes with defaults, callers guarantee
in-range indices (spec §4.1). -/
def Board.get (b : Board) (row col : Nat) : Int :=
  (b.grid.getD row []).getD col 0

/-- The raw grid write `self.grid[row][col] = value` used by the solver
and generator (bypasses the given-flag check). -/
def Board.setGrid (b : Board) (row col : Nat) (value : Int) : Board :=
  { b with grid := b.grid.set row ((b.grid.getD row []).set col value) }

/-- Embedding of `Board.is_given(row, col)`. -/
def Board.isGiven (b : Board) (row col : Nat) : Bool :=
  (b.given.getD row []).getD col false

/-- Embedding of `Board.set(row, col, value)`: returns `False` and leaves the board
unchanged when the cell is given, otherwise writes the value and returns
`True`.  The pair carries the Python return value and the board state
after the call. -/
def Board.set (b : Board) (row col : Nat) (value : Int) : Bool × Board :=
  if b.isGiven row col then (false, b)
  else (true, b.setGrid row col value)

/-- Embedding of `Board.mark_given(row, col)`. -/
def Board.markGiven (b : Board) (row col : Nat) : Board :=
  { b with given := b.given.set row ((b.given.getD row []).set col true) }

/-- The 3×3 box cells scanned by `is_valid_move` and `get_conflicts`:
`for r in range(box_row, box_row + 3): for c in range(box_col, box_col + 3)`
linearized in the same (row-major) order. -/
def boxCells (row col : Nat) : List (Nat × Nat) :=
  (List.range 3).flatMap fun i =>
    (List.range 3).map fun j => (row / 3 * 3 + i, col / 3 * 3 + j)

/-- Embedding of `Board.is_valid_move(row, col, num)`: no *other* cell of the row, the
column or the 3×3 box holds `num`.  Python early-returns `False` on the
first hit; `List.all` of the per-cell checks is equivalent. -/
def Board.isValidMove (b : Board) (row col : Nat) (num : Int) : Bool :=
  ((List.range 9).all fun c =>
    if c ≠ col ∧ b.get row c = num then false else true) &&
  ((List.range 9).all fun r =>
    if r ≠ row ∧ b.get r col = num then false else true) &&
  ((boxCells row col).all fun p =>
    if p ≠ (row, col) ∧ b.get p.1 p.2 = num then false else true)

/-- Embedding of `Board.get_conflicts(row, col)`: the set of other cells of the same
row, column or box holding the same value; empty when the cell is empty.
Python accumulates into a `set`; the embedding folds `insert` over the
same scans in the same order. -/
def Board.getConflicts (b : Board) (row col : Nat) : Finset (Nat × Nat) :=
  let num := b.get row col
  if num = 0 then ∅
  else
    let s1 := (List.range 9).foldl (fun s c =>
      if c ≠ col ∧ b.get row c = num then insert (row, c) s else s) ∅
    let s2 := (List.range 9).foldl (fun s r =>
      if r ≠ row ∧ b.get r col = num then insert (r, col) s else s) s1
    (boxCells row col).foldl (fun s p =>
      if p ≠ (row, col) ∧ b.get p.1 p.2 = num then insert p s else s) s2

/-- Embedding of `Board.is_filled()`. -/
def Board.isFilled (b : Board) : Bool :=
  (List.range 9).all fun row => (List.range 9).all fun col => !(b.get row col == 0)

/-- Embedding of `Board.is_complete()`. -/
def Board.isComplete (b : Board) : Bool :=
  (List.range 9).all fun row => (List.range 9).all fun col =>
    !(b.get row col == 0) && b.isValidMove row col (b.get row col)

/-- Embedding of `Board.copy()`: a deep copy; in the pure embedding the copy is the
value itself. -/
def Board.copy (b : Board) : Board := ⟨b.grid, b.given⟩

/-- Embedding of `Board.from_dict(data)`: assigns `data['grid']` and `data['given']`
verbatim, with no shape or domain validation. -/
def Board.fromDict (grid : List (List Int)) (given : List (List Bool)) : Board :=
  ⟨grid, given⟩

/-- Embedding of `Board.to_dict()`. -/
def Board.toDict (b : Board) : List (List Int) × List (List Bool) :=
  (b.grid, b.given)

/-- The 9×9 shape invariant of real boards (spec §3 data model). -/
def Board.shaped (b : Board) : Prop :=
  b.grid.length = 9 ∧ (∀ row ∈ b.grid, row.length = 9) ∧
  b.given.length = 9 ∧ (∀ row ∈ b.given, row.length = 9)

instance (b : Board) : Decidable b.shaped := by
  unfold Board.shaped; infer_instance

/-- The domain of serialized records per the spec (§6): a 9×9 array of
integers 0–9 plus a parallel 9×9 array of booleans.  Stated from the
spec's words to express what a malformed record is; `Board.fromDict`
above is the code's deserializer. -/
def SerializedShape (grid : List (List Int)) (given : List (List Bool)) : Prop :=
  grid.length = 9 ∧
  (∀ row ∈ grid, row.length = 9 ∧ ∀ v ∈ row, 0 ≤ v ∧ v ≤ 9) ∧
  given.length = 9 ∧ (∀ row ∈ given, row.length = 9)

instance (g : List (List Int)) (gv : List (List Bool)) :
    Decidable (SerializedShape g gv) := by
  unfold SerializedShape; infer_instance

/-- The row-major cell enumeration of
`for row in range(9): for col in range(9)` (`src/solver.py`). -/
def allPositions : List (Nat × Nat) :=
  (List.range 9).flatMap fun row => (List.range 9).map fun col => (row, col)

/-- Embedding of `Solver._find_empty_cell(board)`: the first cell in row-major order
whose value is 0, `none` when the board is full. -/
def findEmpty (b : Board) : Option (Nat × Nat) :=
  allPositions.find? fun p => b.get p.1 p.2 == 0

/-- Embedding of `list(range(1, 10))`: the candidate values tried by `Solver.solve`
and `Solver.count_solutions`, in source order (no shuffle). -/
def candidateNums : List Int :=
  (List.range' 1 9).map fun n => (n : Int)

/-- Embedding of `Solver.solve(board)`: backtracking search, in place.  Returns the
Python boolean together with the board state after the call.  `fuel`
bounds the recursion depth (Python's call stack); 82 is always enough
since each nested call has one more filled cell.  Python's
`for num in numbers` early-returns `True`; the fold carries the Python
return value as a flag, and once it is `true` the remaining iterations
are the skipped rest of the loop.  On recursive failure the cell is
restored to 0 before the next candidate, as in the source.  The source
binds the recursive result once by mutating the board in place; the pure
embedding writes the recursive call three times, but all occurrences
denote the same value. -/
def solveB (fuel : Nat) (b : Board) : Bool × Board :=
  match fuel with
  | 0 => (false, b)
  | fuel' + 1 =>
    match findEmpty b with
    | none => (true, b)
    | some (row, col) =>
      candidateNums.foldl (fun acc num =>
        if acc.1 then acc
        else if acc.2.isValidMove row col num then
          (if (solveB fuel' (acc.2.setGrid row col num)).1 then
            solveB fuel' (acc.2.setGrid row col num)
          else (false, (solveB fuel' (acc.2.setGrid row col num)).2.setGrid row col 0))
        else acc) (false, b)

/-- The recursive `backtrack()` closure of `Solver.count_solutions`,
with the closure-captured counter threaded explicitly: returns the
counter and the board state after the call.  The candidate loop has no
early exit in the source, so it is a fold carrying `(count, board)`; the
two occurrences of the recursive call denote the single in-place
recursive call of the source. -/
def countAux (fuel limit : Nat) (b : Board) (cnt : Nat) : Nat × Board :=
  match fuel with
  | 0 => (cnt, b)
  | fuel' + 1 =>
    if limit ≤ cnt then (cnt, b)
    else
      match findEmpty b with
      | none => (cnt + 1, b)
      | some (row, col) =>
        candidateNums.foldl (fun acc num =>
          if acc.2.isValidMove row col num then
            ((countAux fuel' limit (acc.2.setGrid row col num) acc.1).1,
             (countAux fuel' limit (acc.2.setGrid row col num) acc.1).2.setGrid row col 0)
          else acc) (cnt, b)

/-- Embedding of `Solver.count_solutions(board, limit)`: runs `backtrack()` from
counter 0; the pair carries the returned count and the caller's board
state after the call. -/
def countSolutions (fuel : Nat) (b : Board) (limit : Nat) : Nat × Board :=
  countAux fuel limit b 0

/-- The diff scan of `Solver.get_hint`: first cell empty in `b` but
filled in `solved`. -/
def findFirstDiff (b solved : Board) : Option (Nat × Nat × Int) :=
  (allPositions.find? fun p =>
    (b.get p.1 p.2 == 0) && !(solved.get p.1 p.2 == 0)).map
    fun p => (p.1, p.2, solved.get p.1 p.2)

/-- Embedding of `Solver.get_hint(board)`: solves a copy and diffs it against the
caller's board, which it only reads; the pair carries the returned hint
and the caller's board state after the call. -/
def getHint (fuel : Nat) (b : Board) : Option (Nat × Nat × Int) × Board :=
  let temp := b.copy
  let r := solveB fuel temp
  (if r.1 then findFirstDiff b r.2 else none, b)

/-- A board whose row 0 holds two 1s (cells (0,0) and (0,1)), the rest
empty: a state reachable through `Board.set`, which validates nothing. -/
def conflictedBoard : Board :=
  ⟨[[1, 1, 0, 0, 0, 0, 0, 0, 0]] ++ List.replicate 8 (List.replicate 9 0),
   List.replicate 9 (List.replicate 9 false)⟩

/-- A board holding a single 5 at (0,0), the rest empty. -/
def singleFiveBoard : Board :=
  ⟨[[5, 0, 0, 0, 0, 0, 0, 0, 0]] ++ List.replicate 8 (List.replicate 9 0),
   List.replicate 9 (List.replicate 9 false)⟩

/-- A malformed serialized record: wrong shape (1×1 grid, one empty
given row) and a cell value 17 outside 0–9. -/
def badGrid : List (List Int) := [[17]]

/-- The given-flag half of the malformed record. -/
def badGiven : List (List Bool) := [[]]

/-- The unsolvable board of the spec's scenario: cells (0,0)..(0,8) all
hold 1, the remaining 72 cells are empty (`test_solve_unsolvable_board`
builds it by writing `board.grid[0][col] = 1`, so no cell is given). -/
def rowOnesBoard : Board :=
  ⟨[[1, 1, 1, 1, 1, 1, 1, 1, 1]] ++ List.replicate 8 (List.replicate 9 0),
   List.replicate 9 (List.replicate 9 false)⟩

/-- The values 2..9: the only values placeable in row 1 of
`rowOnesBoard` (1 always collides with row 0 in its column). -/
def rest89 : List Int := [2, 3, 4, 5, 6, 7, 8, 9]

/-- The boards reachable while `solveB` searches from `rowOnesBoard`:
row 0 all 1s, row 1 a placed prefix `l` followed by zeros, rows 2–8
untouched.  `rowOnesBoard` itself is `rowOnesState []`. -/
def rowOnesState (l : List Int) : Board :=
  ⟨List.replicate 9 1 :: (l ++ List.replicate (9 - l.length) 0) ::
     List.replicate 7 (List.replicate 9 0),
   List.replicate 9 (List.replicate 9 false)⟩

/-! ## List helper lemmas -/

lemma getD_set_self {α : Type} (l : List α) (i : Nat) (a d : α) (h : i < l.length) :
    (l.set i a).getD i d = a := by
  rw [List.getD_eq_getElem?_getD, List.getElem?_set_self]
  · simp
  · simpa using h

lemma set_getD_self {α : Type} :
    ∀ (l : List α) (i : Nat) (d : α), l.set i (l.getD i d) = l := by
  intro l
  induction l with
  | nil => intro i d; simp
  | cons a t ih =>
    intro i d
    cases i with
    | zero => rfl
    | succ i => simpa [List.set, List.getD] using ih i d

lemma getD_mem {α : Type} :
    ∀ (l : List α) (i : Nat) (d : α), i < l.length → l.getD i d ∈ l := by
  intro l
  induction l with
  | nil => intro i d h; simp at h
  | cons a t ih =>
    intro i d h
    cases i with
    | zero => simp [List.getD]
    | succ i =>
      simp only [List.getD_cons_succ]
      exact List.mem_cons_of_mem a (ih i d (by simpa using h))

lemma getD_append_left {α : Type} (l r : List α) (i : Nat) (d : α) (h : i < l.length) :
    (l ++ r).getD i d = l.getD i d := by
  simp [List.getD_eq_getElem?_getD, List.getElem?_append, h]

lemma getD_append_right {α : Type} (l r : List α) (i : Nat) (d : α) (h : l.length ≤ i) :
    (l ++ r).getD i d = r.getD (i - l.length) d := by
  rw [List.getD_eq_getElem?_getD, List.getD_eq_getElem?_getD, List.getElem?_append]
  rw [if_neg (by omega)]

lemma getD_replicate_lt {α : Type} (n i : Nat) (a d : α) (h : i < n) :
    (List.replicate n a).getD i d = a := by
  simp [List.getD_eq_getElem?_getD, List.getElem?_replicate, h]

lemma foldl_preserve {α β : Type} (P : α → Prop) (step : α → β → α) :
    ∀ (l : List β) (init : α), P init →
      (∀ acc x, P acc → x ∈ l → P (step acc x)) → P (l.foldl step init) := by
  intro l
  induction l with
  | nil => intro init h _; simpa using h
  | cons hd tl ih =>
    intro init h hs
    rw [List.foldl_cons]
    exact ih _ (hs init hd h (List.mem_cons_self hd tl))
      fun acc x hacc hx => hs acc x hacc (List.mem_cons_of_mem hd hx)

lemma foldl_if_insert_empty {β γ : Type} [DecidableEq β]
    (p : γ → Prop) [DecidablePred p] (f : γ → β) :
    ∀ (l : List γ) (s : Finset β),
      (l.foldl (fun t x => if p x then insert (f x) t else t) s = ∅ ↔
        s = ∅ ∧ ∀ x ∈ l, ¬ p x) := by
  intro l
  induction l with
  | nil => simp
  | cons hd tl ih =>
    intro s
    rw [List.foldl_cons]
    by_cases h : p hd
    · rw [if_pos h, ih]
      constructor
      · rintro ⟨habs, -⟩
        exact absurd habs (Finset.insert_ne_empty _ _)
      · rintro ⟨-, hall⟩
        exact absurd h (hall hd (List.mem_cons_self hd tl))
    · rw [if_neg h, ih]
      constructor
      · rintro ⟨hs, hall⟩
        exact ⟨hs, fun x hx => by
          rcases List.mem_cons.1 hx with hx | hx
          · subst hx; exact h
          · exact hall x hx⟩
      · rintro ⟨hs, hall⟩
        exact ⟨hs, fun x hx => hall x (List.mem_cons_of_mem hd hx)⟩

/-! ## Board update lemmas -/

lemma setGrid_setGrid (b : Board) (r c : Nat) (v w : Int) :
    (b.setGrid r c v).setGrid r c w = b.setGrid r c w := by
  obtain ⟨g, gv⟩ := b
  simp only [Board.setGrid]
  by_cases hr : r < g.length
  · rw [getD_set_self g r _ [] hr, List.set_set, List.set_set]
  · have hle : g.length ≤ r := Nat.le_of_not_lt hr
    simp only [List.set_eq_of_length_le hle]

lemma setGrid_zero_self (b : Board) (r c : Nat) (h : b.get r c = 0) :
    b.setGrid r c 0 = b := by
  obtain ⟨g, gv⟩ := b
  simp only [Board.setGrid, Board.get] at h ⊢
  by_cases hr : r < g.length
  · have h2 : (g.getD r []).set c (0 : Int) = g.getD r [] := by
      conv_lhs => rw [← h]
      exact set_getD_self (g.getD r []) c 0
    rw [h2, set_getD_self g r []]
  · have hle : g.length ≤ r := Nat.le_of_not_lt hr
    rw [List.set_eq_of_length_le hle]

lemma findEmpty_zero (b : Board) (r c : Nat) (h : findEmpty b = some (r, c)) :
    b.get r c = 0 := by
  have := List.find?_some h
  simpa using this

/-! ## Equation lemmas for the fuel-indexed solver functions -/

lemma countAux_succ_stop (fuel limit : Nat) (b : Board) (cnt : Nat) (h : limit ≤ cnt) :
    countAux (fuel + 1) limit b cnt = (cnt, b) := by
  rw [countAux, if_pos h]

lemma countAux_succ_none (fuel limit : Nat) (b : Board) (cnt : Nat)
    (h1 : ¬ limit ≤ cnt) (h2 : findEmpty b = none) :
    countAux (fuel + 1) limit b cnt = (cnt + 1, b) := by
  rw [countAux, if_neg h1, h2]

lemma countAux_succ_some (fuel limit : Nat) (b : Board) (cnt row col : Nat)
    (h1 : ¬ limit ≤ cnt) (h2 : findEmpty b = some (row, col)) :
    countAux (fuel + 1) limit b cnt =
      candidateNums.foldl (fun acc num =>
        if acc.2.isValidMove row col num then
          ((countAux fuel limit (acc.2.setGrid row col num) acc.1).1,
           (countAux fuel limit (acc.2.setGrid row col num) acc.1).2.setGrid row col 0)
        else acc) (cnt, b) := by
  rw [countAux, if_neg h1, h2]

lemma solveB_succ_none (fuel : Nat) (b : Board) (h : findEmpty b = none) :
    solveB (fuel + 1) b = (true, b) := by
  rw [solveB, h]

lemma solveB_succ_some (fuel : Nat) (b : Board) (row col : Nat)
    (h : findEmpty b = some (row, col)) :
    solveB (fuel + 1) b =
      candidateNums.foldl (fun acc num =>
        if acc.1 then acc
        else if acc.2.isValidMove row col num then
          (if (solveB fuel (acc.2.setGrid row col num)).1 then
            solveB fuel (acc.2.setGrid row col num)
          else (false, (solveB fuel (acc.2.setGrid row col num)).2.setGrid row col 0))
        else acc) (false, b) := by
  rw [solveB, h]

/-! ## Frame lemmas: backtracking restores the board -/

lemma countAux_frame : ∀ (fuel limit : Nat) (b : Board) (cnt : Nat),
    (countAux fuel limit b cnt).2 = b := by
  intro fuel
  induction fuel with
  | zero => intro limit b cnt; rfl
  | succ fuel ih =>
    intro limit b cnt
    by_cases hl : limit ≤ cnt
    · rw [countAux_succ_stop fuel limit b cnt hl]
    · cases hfe : findEmpty b with
      | none => rw [countAux_succ_none fuel limit b cnt hl hfe]
      | some p =>
        obtain ⟨row, col⟩ := p
        rw [countAux_succ_some fuel limit b cnt row col hl hfe]
        have hcell : b.get row col = 0 := findEmpty_zero b row col hfe
        apply foldl_preserve (fun acc : Nat × Board => acc.2 = b) _ candidateNums (cnt, b) rfl
        intro acc num hacc _
        by_cases hv : acc.2.isValidMove row col num
        · rw [if_pos hv]
          show (countAux fuel limit (acc.2.setGrid row col num) acc.1).2.setGrid row col 0 = b
          rw [ih, hacc, setGrid_setGrid, setGrid_zero_self b row col hcell]
        · rw [if_neg hv]
          exact hacc

lemma solveB_failed_frame : ∀ (fuel : Nat) (b : Board),
    (solveB fuel b).1 = false → (solveB fuel b).2 = b := by
  intro fuel
  induction fuel with
  | zero => intro b _; rfl
  | succ fuel ih =>
    intro b
    cases hfe : findEmpty b with
    | none =>
      rw [solveB_succ_none fuel b hfe]
      intro h
      exact absurd h (by simp)
    | some p =>
      obtain ⟨row, col⟩ := p
      rw [solveB_succ_some fuel b row col hfe]
      have hcell : b.get row col = 0 := findEmpty_zero b row col hfe
      have hinv := foldl_preserve
        (fun acc : Bool × Board => acc.1 = true ∨ acc.2 = b)
        (fun acc num =>
          if acc.1 then acc
          else if acc.2.isValidMove row col num then
            (if (solveB fuel (acc.2.setGrid row col num)).1 then
              solveB fuel (acc.2.setGrid row col num)
            else (false, (solveB fuel (acc.2.setGrid row col num)).2.setGrid row col 0))
          else acc)
        candidateNums (false, b) (Or.inr rfl) ?_
      · intro hfail
        rcases hinv with h1 | h2
        · rw [hfail] at h1
          exact absurd h1 (by simp)
        · exact h2
      · intro acc num hacc _
        beta_reduce
        by_cases h1 : acc.1
        · rw [if_pos h1]
          exact hacc
        · rw [if_neg h1]
          rcases hacc with h | hb
          · exact absurd h h1
          · by_cases hv : acc.2.isValidMove row col num
            · rw [if_pos hv]
              by_cases hr : (solveB fuel (acc.2.setGrid row col num)).1
              · rw [if_pos hr]
                exact Or.inl hr
              · rw [if_neg hr]
                refine Or.inr ?_
                show (solveB fuel (acc.2.setGrid row col num)).2.setGrid row col 0 = b
                rw [ih (acc.2.setGrid row col num) (Bool.not_eq_true _ ▸ hr), hb,
                  setGrid_setGrid, setGrid_zero_self b row col hcell]
            · rw [if_neg hv]
              exact Or.inr hb

/-! ## Claim C3 -/

/-- C3: for every board `B` and every limit, after
`Solver.count_solutions(B, limit)` returns, every cell value and every
given flag of `B` equals its value before the call; likewise
`Solver.get_hint(B)` leaves `B`'s cell values and given flags unchanged.
(`count_solutions` undoes each tentative write when it backtracks;
`get_hint` only reads the caller's board and works on a copy.) -/
theorem count_solutions_get_hint_frame :
    ∀ (fuel limit : Nat) (b : Board),
      (countSolutions fuel b limit).2 = b ∧ (getHint fuel b).2 = b :=
  fun fuel limit b => ⟨countAux_frame fuel limit b 0, rfl⟩

/-! ## Claim C2 -/

/-- C2 counterexample: on the board whose row 0 starts with two 1s,
re-checking the current nonzero value 1 of the in-range cell (0, 0)
returns `False` — `is_valid_move(0, 0, get(0, 0))` is not true for
every board state, contrary to the claim. -/
theorem is_valid_move_self_cex :
    conflictedBoard.get 0 0 = 1 ∧
    conflictedBoard.isValidMove 0 0 (conflictedBoard.get 0 0) = false := by
  constructor
  · rfl
  · decide

/-- C2 (amended): re-checking a cell's current nonzero value against its
own cell never conflicts *provided the cell is not itself in conflict*:
if `get_conflicts(row, col)` is empty and the cell is nonzero, then
`is_valid_move(row, col, get(row, col))` returns true — the comparison
excludes the cell itself, so only a conflicting peer can make it fail. -/
theorem is_valid_move_self_ok (b : Board) (row col : Nat)
    (h0 : b.get row col ≠ 0) (hc : b.getConflicts row col = ∅) :
    b.isValidMove row col (b.get row col) = true := by
  simp only [Board.getConflicts] at hc
  rw [if_neg h0] at hc
  rw [foldl_if_insert_empty] at hc
  obtain ⟨hc2, hbox⟩ := hc
  rw [foldl_if_insert_empty] at hc2
  obtain ⟨hc1, hcol⟩ := hc2
  rw [foldl_if_insert_empty] at hc1
  obtain ⟨-, hrow⟩ := hc1
  simp only [Board.isValidMove, Bool.and_eq_true]
  refine ⟨⟨?_, ?_⟩, ?_⟩ <;> rw [List.all_eq_true] <;> intro x hx
  · rw [if_neg (hrow x hx)]
  · rw [if_neg (hcol x hx)]
  · rw [if_neg (hbox x hx)]

/-- C2 witness: the amended theorem applied to the board holding a
single 5 at (0, 0). -/
theorem is_valid_move_self_ok_witness :
    singleFiveBoard.get 0 0 ≠ 0 ∧ singleFiveBoard.getConflicts 0 0 = ∅ ∧
    singleFiveBoard.isValidMove 0 0 (singleFiveBoard.get 0 0) = true :=
  ⟨by decide, by rfl, is_valid_move_self_ok singleFiveBoard 0 0 (by decide) (by rfl)⟩

/-! ## Claim C6 -/

/-- C6: `Board.from_dict` performs no validation: on a malformed record
(wrong array shape and a cell value 17 outside 0–9) it succeeds and
returns a `Board` holding the out-of-domain arrays verbatim, instead of
failing with a structured error. -/
theorem from_dict_no_validation :
    (Board.fromDict badGrid badGiven).grid = badGrid ∧
    (Board.fromDict badGrid badGiven).get 0 0 = 17 ∧
    ¬ SerializedShape badGrid badGiven := by
  refine ⟨rfl, rfl, ?_⟩
  decide

/-! ## Claims C7 and C10 -/

lemma shaped_grid_row (b : Board) (hs : b.shaped) (row : Nat) (hr : row < 9) :
    (b.grid.getD row []).length = 9 :=
  hs.2.1 _ (getD_mem b.grid row [] (by rw [hs.1]; exact hr))

lemma get_setGrid_self (b : Board) (row col : Nat) (v : Int)
    (hr : row < b.grid.length) (hc : col < (b.grid.getD row []).length) :
    (b.setGrid row col v).get row col = v := by
  obtain ⟨g, gv⟩ := b
  simp only [Board.setGrid, Board.get] at hc ⊢
  rw [getD_set_self g row _ [] hr, getD_set_self _ col v 0 (by simpa using hc)]

/-- C7: for every 9×9 board and in-range cell, if the cell is not given
then `set(row, col, v)` returns `True` and afterwards `get(row, col)`
is `v`; if the cell is given then `set` returns `False` and the whole
board (cell values and given flags) is unchanged. -/
theorem set_get_contract (b : Board) (row col : Nat) (v : Int)
    (hs : b.shaped) (hr : row < 9) (hc : col < 9) :
    (b.isGiven row col = false →
      (b.set row col v).1 = true ∧ (b.set row col v).2.get row col = v) ∧
    (b.isGiven row col = true →
      (b.set row col v).1 = false ∧ (b.set row col v).2 = b) := by
  constructor
  · intro hg
    rw [Board.set, if_neg (by simp [hg])]
    exact ⟨rfl, get_setGrid_self b row col v (by rw [hs.1]; exact hr)
      (by rw [shaped_grid_row b hs row hr]; exact hc)⟩
  · intro hg
    rw [Board.set, if_pos hg]
    exact ⟨rfl, rfl⟩

/-- C7 witness: the contract applied to the empty board at (0, 0) with
value 5 (a non-given cell). -/
theorem set_get_contract_witness :
    (emptyBoard.set 0 0 5).1 = true ∧ (emptyBoard.set 0 0 5).2.get 0 0 = 5 :=
  (set_get_contract emptyBoard 0 0 5 (by decide) (by decide) (by decide)).1 (by decide)

/-- C10: `Board.set` performs no domain validation of the value: for
every 9×9 board, in-range non-given cell and *arbitrary* integer `v`
(including values outside 0–9), `set(row, col, v)` returns `True` and
stores `v`, so out-of-domain values can enter the grid through the
public interface. -/
theorem set_stores_any_int (b : Board) (row col : Nat) (v : Int)
    (hs : b.shaped) (hr : row < 9) (hc : col < 9)
    (hg : b.isGiven row col = false) :
    (b.set row col v).1 = true ∧ (b.set row col v).2.get row col = v := by
  rw [Board.set, if_neg (by simp [hg])]
  exact ⟨rfl, get_setGrid_self b row col v (by rw [hs.1]; exact hr)
    (by rw [shaped_grid_row b hs row hr]; exact hc)⟩

/-- C10 witness: storing the out-of-domain value 17 into the empty board
succeeds, and the stored value is outside 0–9. -/
theorem set_stores_any_int_witness :
    (emptyBoard.set 0 0 17).1 = true ∧ (emptyBoard.set 0 0 17).2.get 0 0 = 17 ∧
    ¬ (0 ≤ (emptyBoard.set 0 0 17).2.get 0 0 ∧
        (emptyBoard.set 0 0 17).2.get 0 0 ≤ 9) := by
  have h := set_stores_any_int emptyBoard 0 0 17 (by decide) (by decide)
    (by decide) (by decide)
  exact ⟨h.1, h.2, by rw [h.2]; decide⟩

/-! ## Claim C9 -/

/-- C9: `Solver.solve` is deterministic: its candidate list is the fixed
ascending 1..9 (`list(range(1, 10))`, never shuffled), and two runs on
cell-for-cell equal boards (equal grids and equal given flags) return
the same boolean and leave the two boards cell-for-cell equal. -/
theorem solve_deterministic :
    candidateNums = [1, 2, 3, 4, 5, 6, 7, 8, 9] ∧
    ∀ (fuel : Nat) (b1 b2 : Board), b1.grid = b2.grid → b1.given = b2.given →
      solveB fuel b1 = solveB fuel b2 := by
  refine ⟨by decide, ?_⟩
  intro fuel b1 b2 hg hv
  obtain ⟨g1, v1⟩ := b1
  obtain ⟨g2, v2⟩ := b2
  change g1 = g2 at hg
  change v1 = v2 at hv
  subst hg
  subst hv
  rfl

/-- C9 witness: the determinism theorem applied to two structurally
equal copies of the empty board. -/
theorem solve_deterministic_witness :
    solveB 0 emptyBoard = solveB 0 (Board.mk emptyBoard.grid emptyBoard.given) :=
  solve_deterministic.2 0 emptyBoard (Board.mk emptyBoard.grid emptyBoard.given) rfl rfl

/-! ## Claim C8: the row-of-nine-1s board is unsolvable

The search from `rowOnesBoard` only ever visits states `rowOnesState l`:
row-major scanning reaches row 1 first, every placement there lands at
the first empty cell of row 1, and backtracking restores it.  In such a
state only values of 2..9 can be placed (1 collides with the 1 of row 0
in the same column, and values already in row 1 collide within the
row), so at most eight of row 1's nine cells can ever be filled: every
branch of the search fails. -/

lemma candidateNums_eq_cons : candidateNums = 1 :: rest89 := by decide

lemma mem_rest89_ne_zero (v : Int) (h : v ∈ rest89) : v ≠ 0 := by
  simp only [rest89] at h
  fin_cases h <;> decide

lemma isValidMove_false_of_row_hit (b : Board) (row col c : Nat) (num : Int)
    (hc : c < 9) (hne : c ≠ col) (hv : b.get row c = num) :
    b.isValidMove row col num = false := by
  have h1 : ((List.range 9).all fun x =>
      if x ≠ col ∧ b.get row x = num then false else true) = false := by
    rw [List.all_eq_false]
    refine ⟨c, List.mem_range.2 hc, ?_⟩
    rw [if_pos ⟨hne, hv⟩]
    simp
  simp only [Board.isValidMove, h1, Bool.false_and]

lemma isValidMove_false_of_col_hit (b : Board) (row col r : Nat) (num : Int)
    (hr : r < 9) (hne : r ≠ row) (hv : b.get r col = num) :
    b.isValidMove row col num = false := by
  have h1 : ((List.range 9).all fun x =>
      if x ≠ row ∧ b.get x col = num then false else true) = false := by
    rw [List.all_eq_false]
    refine ⟨r, List.mem_range.2 hr, ?_⟩
    rw [if_pos ⟨hne, hv⟩]
    simp
  simp only [Board.isValidMove, h1, Bool.and_false, Bool.false_and]

lemma rowOnesState_get_0 (l : List Int) (c : Nat) (hc : c < 9) :
    (rowOnesState l).get 0 c = 1 := by
  show (List.replicate 9 (1 : Int)).getD c 0 = 1
  exact getD_replicate_lt 9 c 1 0 hc

lemma rowOnesState_get_1 (l : List Int) (c : Nat) :
    (rowOnesState l).get 1 c = (l ++ List.replicate (9 - l.length) 0).getD c 0 := rfl

lemma rowOnesState_get_1_lt (l : List Int) (c : Nat) (hc : c < l.length) :
    (rowOnesState l).get 1 c = l.getD c 0 := by
  rw [rowOnesState_get_1, getD_append_left _ _ _ _ hc]

lemma rowOnesState_get_1_len (l : List Int) (h : l.length ≤ 8) :
    (rowOnesState l).get 1 l.length = 0 := by
  rw [rowOnesState_get_1, getD_append_right _ _ _ _ (Nat.le_refl _), Nat.sub_self]
  exact getD_replicate_lt _ 0 0 0 (by omega)

lemma allPositions_decomp :
    allPositions = ((List.range' 0 9).map fun c => ((0 : Nat), c)) ++
      ((List.range' 0 9).map fun c => ((1 : Nat), c)) ++
      ((List.range 7).flatMap fun r => (List.range 9).map fun c => (r + 2, c)) := by
  decide

lemma find?_row0_none (l : List Int) :
    (((List.range' 0 9).map fun c => ((0 : Nat), c)).find?
      fun p => (rowOnesState l).get p.1 p.2 == 0) = none := rfl

lemma find?_row1_walk (L : List Int) (hne : ∀ v ∈ L, v ≠ 0) (hL : L.length ≤ 8) :
    ∀ (m k : Nat), k ≤ L.length → L.length - k = m →
      (((List.range' k (9 - k)).map fun c => ((1 : Nat), c)).find?
        fun p => (rowOnesState L).get p.1 p.2 == 0) = some (1, L.length) := by
  intro m
  induction m with
  | zero =>
    intro k hk hm
    have hkL : k = L.length := by omega
    have h9 : 9 - k = (8 - k) + 1 := by omega
    rw [h9, List.range'_succ, List.map_cons]
    have hget : (rowOnesState L).get 1 L.length = 0 := rowOnesState_get_1_len L hL
    simp [List.find?, hget, hkL]
  | succ m ih =>
    intro k hk hm
    have hklt : k < L.length := by omega
    have h9 : 9 - k = (8 - k) + 1 := by omega
    rw [h9, List.range'_succ, List.map_cons]
    have hfalse : ((rowOnesState L).get 1 k == 0) = false := by
      rw [rowOnesState_get_1_lt L k hklt]
      exact beq_eq_false_iff_ne.mpr (hne _ (getD_mem L k 0 hklt))
    have h8 : 8 - k = 9 - (k + 1) := by omega
    rw [show (((1 : Nat), k) :: ((List.range' (k + 1) (8 - k)).map fun c => ((1 : Nat), c))).find?
          (fun p => (rowOnesState L).get p.1 p.2 == 0)
        = ((List.range' (k + 1) (8 - k)).map fun c => ((1 : Nat), c)).find?
          (fun p => (rowOnesState L).get p.1 p.2 == 0) from by simp [List.find?, hfalse]]
    rw [h8]
    exact ih (k + 1) (by omega) (by omega)

lemma findEmpty_rowOnesState (l : List Int) (hne : ∀ v ∈ l, v ≠ 0) (hl : l.length ≤ 8) :
    findEmpty (rowOnesState l) = some (1, l.length) := by
  have hB := find?_row1_walk l hne hl l.length 0 (by omega) (by omega)
  rw [Nat.sub_zero] at hB
  rw [findEmpty, allPositions_decomp]
  simp only [List.find?_append, find?_row0_none l, hB]
  rfl

lemma rowOnesState_set (l : List Int) (v : Int) (h : l.length ≤ 8) :
    (rowOnesState l).setGrid 1 l.length v = rowOnesState (l ++ [v]) := by
  have h9 : 9 - l.length = (8 - l.length) + 1 := by omega
  have h9' : (9 : Nat) - (l ++ [v]).length = 8 - l.length := by simp
  have hrow : (l ++ List.replicate (9 - l.length) 0).set l.length v
      = (l ++ [v]) ++ List.replicate (9 - (l ++ [v]).length) 0 := by
    rw [h9, h9', List.replicate_succ, List.set_append_right _ _ (Nat.le_refl _)]
    simp
  simp only [rowOnesState, Board.setGrid, List.getD_cons_succ, List.getD_cons_zero,
    List.set_cons_succ, List.set_cons_zero, hrow]

lemma rowOnesState_unset (l : List Int) (v : Int) (h : l.length ≤ 8) :
    (rowOnesState (l ++ [v])).setGrid 1 l.length 0 = rowOnesState l := by
  have h9 : 9 - l.length = (8 - l.length) + 1 := by omega
  have h9' : (9 : Nat) - (l ++ [v]).length = 8 - l.length := by simp
  have hrow : ((l ++ [v]) ++ List.replicate (9 - (l ++ [v]).length) 0).set l.length 0
      = l ++ List.replicate (9 - l.length) 0 := by
    rw [h9', h9, List.replicate_succ, List.append_assoc,
      List.set_append_right _ _ (Nat.le_refl _)]
    simp
  simp only [rowOnesState, Board.setGrid, List.getD_cons_succ, List.getD_cons_zero,
    List.set_cons_succ, List.set_cons_zero, hrow]

lemma valid_num_not_one (l : List Int) (num : Int) (h : l.length ≤ 8)
    (hv : (rowOnesState l).isValidMove 1 l.length num = true) : num ≠ 1 := by
  intro h1
  subst h1
  have hf := isValidMove_false_of_col_hit (rowOnesState l) 1 l.length 0 1
    (by omega) (by omega) (rowOnesState_get_0 l l.length (by omega))
  rw [hf] at hv
  exact absurd hv (by simp)

lemma valid_num_not_mem (l : List Int) (num : Int) (h : l.length ≤ 8)
    (hv : (rowOnesState l).isValidMove 1 l.length num = true) : num ∉ l := by
  intro hmem
  obtain ⟨i, hi⟩ := List.mem_iff_get.1 hmem
  have hget : (rowOnesState l).get 1 i.val = num := by
    rw [rowOnesState_get_1_lt l i.val i.isLt, List.getD_eq_getElem?_getD,
      List.getElem?_eq_getElem i.isLt]
    simpa using hi
  have hf := isValidMove_false_of_row_hit (rowOnesState l) 1 l.length i.val num
    (by omega) (by omega) hget
  rw [hf] at hv
  exact absurd hv (by simp)

lemma valid_num_mem_rest89 (l : List Int) (num : Int) (h : l.length ≤ 8)
    (hc : num ∈ candidateNums)
    (hv : (rowOnesState l).isValidMove 1 l.length num = true) : num ∈ rest89 := by
  rw [candidateNums_eq_cons] at hc
  rcases List.mem_cons.1 hc with h1 | h1
  · exact absurd h1 (valid_num_not_one l num h hv)
  · exact h1

lemma no_valid_at_eight (l : List Int) (hnd : l.Nodup)
    (hmem : ∀ v ∈ l, v ∈ rest89) (hlen : l.length = 8)
    (num : Int) (hc : num ∈ candidateNums) :
    (rowOnesState l).isValidMove 1 l.length num = false := by
  cases hx : (rowOnesState l).isValidMove 1 l.length num with
  | false => rfl
  | true =>
    exfalso
    have h8 : l.length ≤ 8 := hlen.le
    have hnotmem : num ∉ l := valid_num_not_mem l num h8 hx
    have hnum89 : num ∈ rest89 := valid_num_mem_rest89 l num h8 hc hx
    have hsp : List.Subperm l rest89 := List.Nodup.subperm hnd fun v hv => hmem v hv
    have hperm : List.Perm l rest89 :=
      hsp.perm_of_length_le (by rw [hlen]; rfl)
    exact hnotmem (hperm.mem_iff.2 hnum89)

lemma solveB_rowOnesState_false : ∀ (fuel : Nat) (l : List Int),
    l.Nodup → (∀ v ∈ l, v ∈ rest89) → l.length ≤ 8 →
    (solveB fuel (rowOnesState l)).1 = false := by
  intro fuel
  induction fuel with
  | zero => intro l _ _ _; rfl
  | succ fuel ih =>
    intro l hnd hmem hlen
    have hne : ∀ v ∈ l, v ≠ 0 := fun v hv => mem_rest89_ne_zero v (hmem v hv)
    rw [solveB_succ_some fuel _ 1 l.length (findEmpty_rowOnesState l hne hlen)]
    have hres := foldl_preserve
      (fun acc : Bool × Board => acc.1 = false ∧ acc.2 = rowOnesState l)
      (fun acc num =>
        if acc.1 then acc
        else if acc.2.isValidMove 1 l.length num then
          (if (solveB fuel (acc.2.setGrid 1 l.length num)).1 then
            solveB fuel (acc.2.setGrid 1 l.length num)
          else (false, (solveB fuel (acc.2.setGrid 1 l.length num)).2.setGrid 1 l.length 0))
        else acc)
      candidateNums (false, rowOnesState l) ⟨rfl, rfl⟩ ?_
    · rw [hres.1]
    · intro acc num hacc hmemnum
      beta_reduce
      obtain ⟨hacc1, hacc2⟩ := hacc
      rw [if_neg (by rw [hacc1]; exact Bool.false_ne_true), hacc2]
      by_cases hv : (rowOnesState l).isValidMove 1 l.length num
      · rw [if_pos hv]
        rcases Nat.lt_or_ge l.length 8 with h8 | h8
        · have hnm : num ∉ l := valid_num_not_mem l num hlen hv
          have hnum89 : num ∈ rest89 := valid_num_mem_rest89 l num hlen hmemnum hv
          have hnd2 : (l ++ [num]).Nodup := by simp [List.nodup_append, hnd, hnm]
          have hmem2 : ∀ v ∈ l ++ [num], v ∈ rest89 := by
            intro v hv2
            rcases List.mem_append.1 hv2 with h2 | h2
            · exact hmem v h2
            · rw [List.mem_singleton] at h2
              rw [h2]
              exact hnum89
          have hlen2 : (l ++ [num]).length ≤ 8 := by
            rw [List.length_append]
            simp only [List.length_singleton]
            omega
          rw [rowOnesState_set l num hlen]
          have hrec := ih (l ++ [num]) hnd2 hmem2 hlen2
          rw [if_neg (by rw [hrec]; exact Bool.false_ne_true)]
          refine ⟨rfl, ?_⟩
          show (solveB fuel (rowOnesState (l ++ [num]))).2.setGrid 1 l.length 0
            = rowOnesState l
          rw [solveB_failed_frame fuel _ hrec, rowOnesState_unset l num hlen]
        · have hlen8 : l.length = 8 := Nat.le_antisymm hlen h8
          have hf := no_valid_at_eight l hnd hmem hlen8 num hmemnum
          rw [hf] at hv
          exact absurd hv (by simp)
      · rw [if_neg hv]
        exact ⟨hacc1, hacc2⟩

/-- C8: on the board whose cells (0,0)..(0,8) all hold 1 and whose
remaining 72 cells are empty, `Solver.solve` returns `False` — for every
recursion budget, by exhausting the search and signalling through the
return value (the embedding is total, mirroring the solver's
no-exception contract): row 1 can only ever receive values from 2..9
(1 collides with row 0 in every column), so its nine cells can never
all be filled and every branch of the backtracking fails. -/
theorem solve_row_of_ones_false : ∀ fuel : Nat, (solveB fuel rowOnesBoard).1 = false := by
  intro fuel
  rw [show rowOnesBoard = rowOnesState [] from rfl]
  exact solveB_rowOnesState_false fuel [] List.nodup_nil (by simp) (by simp)

end SudokuCli
